import Mathlib

/-!
Verification of the asynchronous job-execution engine of the
`Le_Stats_Sportiff_ASC_Homework1` repository (`app/task_runner.py` and the
job-related parts of `app/routes.py`), as a shallow embedding in Lean 4.

Python dictionaries keyed by job-id strings are modelled as association
lists; Python exceptions raised by a task are modelled with `Except`;
the thread pool's shared state is a record, and the operations of
`ThreadPool`, `TaskRunner` and the route handlers are pure state-passing
functions over it.  Interleaved executions are modelled where a claim is
about concurrency: a micro-step machine for `add_job` and an atomic-step
transition relation for submit / dequeue / complete.
-/

namespace TaskRunnerModel

/-! ## Python dict model: association lists with last-write-wins update -/

/-- `d.get(k)` on a Python dict modelled as an association list. -/
def dictGet (k : String) : List (String × α) → Option α
  | [] => none
  | (k', v) :: rest => if k' = k then some v else dictGet k rest

/-- `d[k] = v` on a Python dict: replace the binding if present, else append. -/
def dictSet (k : String) (v : α) : List (String × α) → List (String × α)
  | [] => [(k, v)]
  | (k', v') :: rest =>
      if k' = k then (k, v) :: rest else (k', v') :: dictSet k v rest

theorem dictGet_dictSet_eq (k : String) (v : α) (d : List (String × α)) :
    dictGet k (dictSet k v d) = some v := by
  induction d with
  | nil => simp [dictGet, dictSet]
  | cons hd tl ih =>
      obtain ⟨k', v'⟩ := hd
      by_cases h : k' = k <;> simp [dictGet, dictSet, h, ih]

theorem dictGet_dictSet_ne (k k' : String) (v : α) (d : List (String × α))
    (h : k' ≠ k) : dictGet k' (dictSet k v d) = dictGet k' d := by
  have h' : k ≠ k' := Ne.symm h
  induction d with
  | nil => simp [dictGet, dictSet, h']
  | cons hd tl ih =>
      obtain ⟨k'', v''⟩ := hd
      simp only [dictSet]
      by_cases h2 : k'' = k
      · subst h2
        simp [dictGet, h']
      · by_cases h3 : k'' = k' <;> simp [dictGet, h2, h3, h, h', ih]

theorem dictGet_dictSet_isSome (k k' : String) (v : α) (d : List (String × α))
    (h : (dictGet k' d).isSome) : (dictGet k' (dictSet k v d)).isSome := by
  by_cases hk : k' = k
  · subst hk; simp [dictGet_dictSet_eq]
  · rwa [dictGet_dictSet_ne k k' v d hk]

/-! ## Python decimal string model

Python's `str(...)` applied to a non-negative integer produces its decimal
digit string.  We model it with a fuel-based digit extraction (so that it
is kernel-computable) and prove it injective via an explicit decoder. -/

/-- Little-endian decimal digits of `n`; `fuel ≥ n` makes it total. -/
def toDecimalRevAux : Nat → Nat → List Nat
  | 0, _ => []
  | fuel + 1, n => if n = 0 then [] else n % 10 :: toDecimalRevAux fuel (n / 10)

/-- Little-endian decimal digits of `n` (empty for `0`). -/
def toDecimalRev (n : Nat) : List Nat := toDecimalRevAux n n

/-- Decoder: rebuild the number from little-endian digits. -/
def fromDecimalRev : List Nat → Nat
  | [] => 0
  | d :: ds => d + 10 * fromDecimalRev ds

theorem fromDecimalRev_toDecimalRevAux (fuel n : Nat) (h : n ≤ fuel) :
    fromDecimalRev (toDecimalRevAux fuel n) = n := by
  induction fuel generalizing n with
  | zero =>
      have : n = 0 := Nat.le_zero.mp h
      subst this; simp [toDecimalRevAux, fromDecimalRev]
  | succ f ih =>
      by_cases hn : n = 0
      · simp [toDecimalRevAux, hn, fromDecimalRev]
      · have hdiv : n / 10 ≤ f := by
          have h1 : n / 10 < n := Nat.div_lt_self (Nat.pos_of_ne_zero hn) (by norm_num)
          omega
        simp only [toDecimalRevAux, hn, if_false, fromDecimalRev]
        rw [ih (n / 10) hdiv]
        omega

theorem fromDecimalRev_toDecimalRev (n : Nat) :
    fromDecimalRev (toDecimalRev n) = n :=
  fromDecimalRev_toDecimalRevAux n n (Nat.le_refl n)

theorem toDecimalRev_injective : Function.Injective toDecimalRev := by
  intro a b h
  have := congrArg fromDecimalRev h
  rwa [fromDecimalRev_toDecimalRev, fromDecimalRev_toDecimalRev] at this

theorem toDecimalRevAux_digits_lt (fuel n : Nat) :
    ∀ d ∈ toDecimalRevAux fuel n, d < 10 := by
  induction fuel generalizing n with
  | zero => simp [toDecimalRevAux]
  | succ f ih =>
      by_cases hn : n = 0
      · simp [toDecimalRevAux, hn]
      · simp only [toDecimalRevAux, hn, if_false]
        intro d hd
        rcases List.mem_cons.mp hd with h1 | h2
        · subst h1; exact Nat.mod_lt _ (by norm_num)
        · exact ih (n / 10) d h2

theorem toDecimalRev_digits_lt (n : Nat) : ∀ d ∈ toDecimalRev n, d < 10 :=
  toDecimalRevAux_digits_lt n n

/-- Model of Python `str(n)` for a non-negative integer `n`. -/
def pyNatStr (n : Nat) : String :=
  if n = 0 then "0"
  else String.mk (((toDecimalRev n).reverse).map Nat.digitChar)

/-- Inverse of `Nat.digitChar` on decimal digits. -/
def charToDigit (c : Char) : Nat := c.toNat - 48

theorem charToDigit_digitChar (d : Nat) (h : d < 10) :
    charToDigit (Nat.digitChar d) = d := by
  interval_cases d <;> decide

/-- Decoder for `pyNatStr`. -/
def pyNatStrDecode (s : String) : Nat :=
  fromDecimalRev ((s.data.reverse).map charToDigit)

theorem pyNatStrDecode_pyNatStr (n : Nat) : pyNatStrDecode (pyNatStr n) = n := by
  by_cases hn : n = 0
  · subst hn; rfl
  · simp only [pyNatStr, hn, if_false, pyNatStrDecode]
    show fromDecimalRev
      (((((toDecimalRev n).reverse).map Nat.digitChar).reverse).map charToDigit) = n
    rw [← List.map_reverse, List.reverse_reverse, List.map_map]
    have hmap : ∀ l : List Nat, (∀ d ∈ l, d < 10) →
        l.map (charToDigit ∘ Nat.digitChar) = l := by
      intro l hl
      induction l with
      | nil => rfl
      | cons hd tl ih =>
          simp only [List.map_cons, Function.comp_apply]
          rw [charToDigit_digitChar hd (hl hd (List.mem_cons_self hd tl))]
          rw [ih (fun d hd2 => hl d (List.mem_cons_of_mem _ hd2))]
    rw [hmap (toDecimalRev n) (toDecimalRev_digits_lt n)]
    exact fromDecimalRev_toDecimalRev n

theorem pyNatStr_injective : Function.Injective pyNatStr := by
  intro a b h
  have := congrArg pyNatStrDecode h
  rwa [pyNatStrDecode_pyNatStr, pyNatStrDecode_pyNatStr] at this

/-- Accumulating decimal parser: `none` as soon as a non-digit appears. -/
def parseDigitsAux : List Char → Nat → Option Nat
  | [], acc => some acc
  | c :: cs, acc =>
      if c.isDigit then parseDigitsAux cs (acc * 10 + charToDigit c) else none

/-- Model of Python `int(s)` on a decimal literal with an optional sign:
`ValueError` (here `none`) on an empty string, a bare sign, or any
non-digit character. -/
def pyIntParse (s : String) : Option Int :=
  match s.data with
  | [] => none
  | '-' :: cs =>
      if cs = [] then none else (parseDigitsAux cs 0).map (fun n => -(n : Int))
  | '+' :: cs =>
      if cs = [] then none else (parseDigitsAux cs 0).map (fun n => (n : Int))
  | cs => (parseDigitsAux cs 0).map (fun n => (n : Int))

/-! ## Python values, tasks, job results -/

/-- The Python values relevant to the claims: strings and integers
(job identifiers arrive as either). -/
inductive PyVal where
  | pyInt : Int → PyVal
  | pyStr : String → PyVal
  deriving DecidableEq, Repr

/-- Model of Python `str(k)` for an integer. -/
def pyIntStr (k : Int) : String :=
  if k < 0 then "-" ++ pyNatStr k.natAbs else pyNatStr k.toNat

/-- Model of Python `str(v)`: identity on strings, decimal rendering on ints. -/
def pyStrOf : PyVal → String
  | .pyInt k => pyIntStr k
  | .pyStr s => s

/-- A task body: takes the payload, returns a value or raises an exception
carrying a message (`func(data)` in `_execute_task_safely`). -/
def PyTask : Type := PyVal → Except String PyVal

/-- A value stored in `job_results`: either the task's return value or the
failure dict `\x7b"error": str(e)\x7d` built by `_handle_execution_failure`
(an empty dict `\x7b\x7d` is `.obj []`, used as the default in `get_response`). -/
inductive JobResult where
  | value : PyVal → JobResult
  | obj : List (String × String) → JobResult
  deriving DecidableEq, Repr

/-! ## ThreadPool state and operations (`app/task_runner.py`) -/

/-- The shared state owned by `ThreadPool`: the job queue of
`(task_func, payload, job_id)` triples, the `job_status` and `job_results`
dicts, the shutdown event flag, and the worker threads (modelled by their
count plus the ids currently held by a worker between dequeue and the
terminal status write). -/
structure PoolState where
  jobQueue : List (PyTask × PyVal × String)
  inFlight : List String
  jobStatus : List (String × String)
  jobResults : List (String × JobResult)
  shutdownEvent : Bool
  workers : Nat

/-- The state right after `ThreadPool.__init__`: empty queue and dicts,
shutdown flag clear, `n` workers started. -/
def initPool (n : Nat) : PoolState :=
  { jobQueue := [], inFlight := [], jobStatus := [], jobResults := [],
    shutdownEvent := false, workers := n }

/-- `ThreadPool._calculate_optimal_thread_count`: if the environment
variable is set and non-empty (Python truthiness), parse it as an integer
and clamp with `max(1, min(int(env_var), core_count))`; on a parse failure
(`ValueError`) or an unset/empty variable, return `core_count`. -/
def calculate_optimal_thread_count (env_var : Option String) (core_count : Nat) : Nat :=
  match env_var with
  | none => core_count
  | some s =>
      if s = "" then core_count
      else
        match pyIntParse s with
        | some k => (max 1 (min k (core_count : Int))).toNat
        | none => core_count

/-- `ThreadPool._validate_job_identifier`: under the status lock, raise
`ValueError` when the id is already registered. -/
def validate_job_identifier (job_id : String) (s : PoolState) : Except String Unit :=
  match dictGet job_id s.jobStatus with
  | some _ => .error ("Duplicate job ID: " ++ job_id)
  | none => .ok ()

/-- `ThreadPool._register_new_job`: put the triple on the queue, then set
`job_status[job_id] = "running"` under the lock. -/
def register_new_job (func : PyTask) (data : PyVal) (job_id : String)
    (s : PoolState) : PoolState :=
  { s with jobQueue := s.jobQueue ++ [(func, data, job_id)],
           jobStatus := dictSet job_id "running" s.jobStatus }

/-- `ThreadPool.add_job`: coerce the id with `str(...)`, validate
uniqueness, register; returns the id string or the raised `ValueError`. -/
def add_job (task_func : PyTask) (payload : PyVal) (job_id : PyVal)
    (s : PoolState) : Except String (String × PoolState) :=
  let job_id_str := pyStrOf job_id
  match validate_job_identifier job_id_str s with
  | .error e => .error e
  | .ok () => .ok (job_id_str, register_new_job task_func payload job_id_str s)

/-- `ThreadPool.get_job_status`: look up `str(job_id)` in `job_status`. -/
def get_job_status (job_id : PyVal) (s : PoolState) : Option String :=
  dictGet (pyStrOf job_id) s.jobStatus

/-- `ThreadPool.get_job_result`: return the stored result only when the
status is `"done"`; `None` otherwise (unknown id, running, or error). -/
def get_job_result (job_id : PyVal) (s : PoolState) : Option JobResult :=
  match get_job_status job_id s with
  | some st => if st = "done" then dictGet (pyStrOf job_id) s.jobResults else none
  | none => none

/-- The observable phases of `ThreadPool.shutdown` after the initial
flag test: activate the shutdown sequence, await pending operations
(`job_queue.join()`), terminate (join) the workers. -/
inductive ShutdownAction where
  | activate
  | drain
  | joinWorkers
  deriving DecidableEq, Repr

/-- `ThreadPool.shutdown`: when the flag is already set, log a warning and
return immediately; otherwise set the flag, drain, and join the workers.
The returned list records which phases ran. -/
def shutdown (s : PoolState) : PoolState × List ShutdownAction :=
  if s.shutdownEvent then (s, [])
  else ({ s with shutdownEvent := true },
        [.activate, .drain, .joinWorkers])

/-! ## Worker execution (`TaskRunner`) -/

/-- `TaskRunner._handle_successful_execution`: store the result and set the
status to `"done"` under the lock. -/
def handle_successful_execution (task_id : String) (result : PyVal)
    (s : PoolState) : PoolState :=
  { s with jobResults := dictSet task_id (.value result) s.jobResults,
           jobStatus := dictSet task_id "done" s.jobStatus }

/-- `TaskRunner._handle_execution_failure`: set the status to `"error"` and
store `\x7b"error": str(e)\x7d` under the lock. -/
def handle_execution_failure (task_id : String) (err_msg : String)
    (s : PoolState) : PoolState :=
  { s with jobStatus := dictSet task_id "error" s.jobStatus,
           jobResults := dictSet task_id (.obj [("error", err_msg)]) s.jobResults }

/-- `TaskRunner._execute_task_safely`: run `func(data)`; on a normal return
record success, on any exception record the failure — the exception does
not escape. -/
def execute_task_safely (func : PyTask) (data : PyVal) (task_id : String)
    (s : PoolState) : PoolState :=
  match func data with
  | .ok r => handle_successful_execution task_id r s
  | .error e => handle_execution_failure task_id e s

/-- One pass of `TaskRunner._process_next_task` when the queue is
non-empty: dequeue the front triple, execute it safely, mark the queue
slot done.  An empty queue is a timeout (`Empty`): no change. -/
def process_next_task (s : PoolState) : PoolState :=
  match s.jobQueue with
  | [] => s
  | (func, data, task_id) :: rest =>
      execute_task_safely func data task_id { s with jobQueue := rest }

/-- Running the worker loop over `k` queue items in sequence (the same
`TaskRunner` keeps iterating `_process_next_task` after any job,
including one that raised). -/
def run_worker_steps : Nat → PoolState → PoolState
  | 0, s => s
  | k + 1, s => run_worker_steps k (process_next_task s)

/-! ## HTTP layer (`app/routes.py`) -/

/-- `JobCounter`: `_counter` starts at 0; `get_next_id` increments it under
the lock and returns `str(self._counter)`. -/
structure JobCounter where
  counter : Nat

/-- `JobCounter.get_next_id`. -/
def get_next_id (c : JobCounter) : String × JobCounter :=
  (pyNatStr (c.counter + 1), ⟨c.counter + 1⟩)

/-- The ids handed out by the first `n` calls to `get_next_id`, in call
order, starting from a counter state `c`. -/
def next_ids : Nat → JobCounter → List String
  | 0, _ => []
  | n + 1, c =>
      let (i, c') := get_next_id c
      i :: next_ids n c'

/-- Responses of `submit_job_request` (`routes.py`), abstracting the JSON
bodies and HTTP codes. -/
inductive SubmitResponse where
  | noJson                    -- 400, JSON payload required
  | rejected                  -- 503, job_id -1, shutting down
  | submitted : String → SubmitResponse   -- 200, the job_id
  | internalError             -- 500, add_job raised
  deriving DecidableEq, Repr

/-- `submit_job_request`: validate JSON; reject when
`tasks_runner.shutdown_event.is_set()`; otherwise mint an id from the
counter and call `add_job` (whose `ValueError` would be caught by the
generic handler and turned into a 500). -/
def submit_job_request (task_callable : PyTask) (payload : PyVal)
    (is_json : Bool) (c : JobCounter) (s : PoolState) :
    SubmitResponse × JobCounter × PoolState :=
  if !is_json then (.noJson, c, s)
  else if s.shutdownEvent then (.rejected, c, s)
  else
    let (job_id_str, c') := get_next_id c
    match add_job task_callable payload (.pyStr job_id_str) s with
    | .ok (jid, s') => (.submitted jid, c', s')
    | .error _ => (.internalError, c', s)

/-- Responses of `get_response` (`/api/get_results/<job_id>`), abstracting
the JSON bodies and HTTP codes. -/
inductive GetResponse where
  | invalidJobId                       -- 404, Invalid job_id
  | doneData : Option JobResult → GetResponse   -- 200, status done + data
  | errorData : JobResult → GetResponse         -- 500, failure description
  | statusOnly : String → GetResponse           -- 200, non-terminal status
  deriving DecidableEq, Repr

/-- `get_response`: read `job_status.get(job_id)` (the URL component is
already a string); 404 on an unknown id; on `done` return the stored data;
on `error` return `job_results.get(job_id, \x7b\x7d)` with a 500; otherwise
echo the status. -/
def get_response (job_id : String) (s : PoolState) : GetResponse :=
  match dictGet job_id s.jobStatus with
  | none => .invalidJobId
  | some st =>
      if st = "done" then .doneData (dictGet job_id s.jobResults)
      else if st = "error" then
        .errorData ((dictGet job_id s.jobResults).getD (.obj []))
      else .statusOnly st

/-- `num_jobs` (`/api/num_jobs`): read `job_queue.qsize()`; report 0 when
the shutdown flag is set and the queue is empty, else the queue size. -/
def num_jobs (s : PoolState) : Nat :=
  let job_count := s.jobQueue.length
  if s.shutdownEvent ∧ job_count = 0 then 0 else job_count

/-- Modelled from the spec (§6): the number of jobs currently
queued-or-running, counting jobs already dequeued by a worker but not yet
terminal — what the claim says the pending-count introspection returns. -/
def spec_queued_or_running (s : PoolState) : Nat :=
  s.jobQueue.length + s.inFlight.length

/-! ## Micro-step model of `add_job` under thread interleaving

`add_job` takes the status lock twice: once in `_validate_job_identifier`
for the duplicate check, and again in `_register_new_job` for the status
insertion, with the unlocked `job_queue.put` in between.  Each locked
section and the `put` are atomic micro-steps; two threads running
`add_job` may interleave them arbitrarily. -/

/-- Program counter of one thread inside `add_job`. -/
inductive AddJobPhase where
  | start      -- about to run the duplicate check
  | checked    -- check passed, about to enqueue
  | enqueued   -- enqueued, about to set status
  | finished   -- returned normally
  | raisedDup  -- raised `ValueError: Duplicate job ID`
  deriving DecidableEq, Repr

/-- Shared registry/queue state plus the two threads' program counters.
The queue records only the id component of each enqueued triple. -/
structure RaceState where
  statusR : List (String × String)
  queueIdsR : List String
  phaseA : AddJobPhase
  phaseB : AddJobPhase
  deriving DecidableEq, Repr

/-- One micro-step of `add_job` for a thread at phase `ph` with id `jid`:
the locked duplicate check, the queue `put`, or the locked status write. -/
def microStep (jid : String) (ph : AddJobPhase)
    (st : List (String × String)) (q : List String) :
    AddJobPhase × List (String × String) × List String :=
  match ph with
  | .start =>
      match dictGet jid st with
      | some _ => (.raisedDup, st, q)
      | none => (.checked, st, q)
  | .checked => (.enqueued, st, q ++ [jid])
  | .enqueued => (.finished, dictSet jid "running" st, q)
  | .finished => (.finished, st, q)
  | .raisedDup => (.raisedDup, st, q)

/-- Let thread B (`true`) or thread A (`false`) take its next micro-step. -/
def raceStep (jidA jidB : String) (thread : Bool) (s : RaceState) : RaceState :=
  if thread then
    let (p, st, q) := microStep jidB s.phaseB s.statusR s.queueIdsR
    { s with phaseB := p, statusR := st, queueIdsR := q }
  else
    let (p, st, q) := microStep jidA s.phaseA s.statusR s.queueIdsR
    { s with phaseA := p, statusR := st, queueIdsR := q }

/-- Run a schedule (list of thread choices) from a race state. -/
def runSchedule (jidA jidB : String) : List Bool → RaceState → RaceState
  | [], s => s
  | t :: rest, s => runSchedule jidA jidB rest (raceStep jidA jidB t s)

/-- Both threads at the top of `add_job`, empty registry and queue. -/
def raceInit : RaceState :=
  { statusR := [], queueIdsR := [], phaseA := .start, phaseB := .start }

/-! ## Atomic-step transition system for job lifecycles

The granularity of the claims on status evolution: a successful or
duplicate submission, a worker dequeue, and a worker's terminal status
write are each one step. -/

/-- The id components of the queued triples. -/
def queueIdsOf (q : List (PyTask × PyVal × String)) : List String :=
  q.map (fun t => t.2.2)

/-- One atomic step of the pool: a submission via `add_job` (succeeding
per `_register_new_job`, or raising on a duplicate id and changing
nothing), a worker dequeueing the front triple, or a worker finishing an
in-flight job via `_handle_successful_execution` /
`_handle_execution_failure`. -/
inductive SysStep : PoolState → PoolState → Prop where
  | submitOk (f : PyTask) (d : PyVal) (jid : String) (s : PoolState)
      (h : dictGet jid s.jobStatus = none) :
      SysStep s (register_new_job f d jid s)
  | submitDup (jid : String) (s : PoolState) (st : String)
      (h : dictGet jid s.jobStatus = some st) :
      SysStep s s
  | dequeue (f : PyTask) (d : PyVal) (jid : String)
      (rest : List (PyTask × PyVal × String)) (s : PoolState)
      (h : s.jobQueue = (f, d, jid) :: rest) :
      SysStep s { s with jobQueue := rest, inFlight := jid :: s.inFlight }
  | completeOk (jid : String) (r : PyVal) (l₁ l₂ : List String) (s : PoolState)
      (h : s.inFlight = l₁ ++ jid :: l₂) :
      SysStep s (handle_successful_execution jid r { s with inFlight := l₁ ++ l₂ })
  | completeErr (jid : String) (msg : String) (l₁ l₂ : List String) (s : PoolState)
      (h : s.inFlight = l₁ ++ jid :: l₂) :
      SysStep s (handle_execution_failure jid msg { s with inFlight := l₁ ++ l₂ })

/-- States reachable from a freshly constructed pool. -/
inductive Reachable : PoolState → Prop where
  | init (n : Nat) : Reachable (initPool n)
  | step {s s' : PoolState} : Reachable s → SysStep s s' → Reachable s'

/-- Pool invariant: the ids of queued and in-flight jobs are pairwise
distinct, and every such id has status `"running"`. -/
def PoolInv (s : PoolState) : Prop :=
  (queueIdsOf s.jobQueue ++ s.inFlight).Nodup ∧
  ∀ jid ∈ queueIdsOf s.jobQueue ++ s.inFlight,
    dictGet jid s.jobStatus = some "running"

theorem poolInv_init (n : Nat) : PoolInv (initPool n) := by
  constructor
  · simp [initPool, queueIdsOf]
  · intro jid h
    simp [initPool, queueIdsOf] at h

theorem poolInv_step {s s' : PoolState} (hs : PoolInv s) (hstep : SysStep s s') :
    PoolInv s' := by
  obtain ⟨hnd, hrun⟩ := hs
  cases hstep with
  | submitOk f d jid s h =>
      have hact : queueIdsOf (register_new_job f d jid s).jobQueue ++
          (register_new_job f d jid s).inFlight =
          queueIdsOf s.jobQueue ++ [jid] ++ s.inFlight := by
        simp [register_new_job, queueIdsOf]
      have hjid_not : jid ∉ queueIdsOf s.jobQueue ++ s.inFlight := by
        intro hmem
        have := hrun jid hmem
        rw [h] at this
        exact Option.noConfusion this
      constructor
      · rw [hact]
        have : queueIdsOf s.jobQueue ++ [jid] ++ s.inFlight =
            queueIdsOf s.jobQueue ++ jid :: s.inFlight := by simp
        rw [this, List.nodup_middle]
        exact List.Nodup.cons hjid_not hnd
      · intro j hj
        rw [hact] at hj
        simp only [register_new_job]
        by_cases hji : j = jid
        · subst hji
          exact dictGet_dictSet_eq _ _ _
        · rw [dictGet_dictSet_ne _ _ _ _ hji]
          apply hrun
          have : queueIdsOf s.jobQueue ++ [jid] ++ s.inFlight =
              queueIdsOf s.jobQueue ++ jid :: s.inFlight := by simp
          rw [this] at hj
          rcases List.mem_append.mp hj with h1 | h2
        -- j in queue ids, or in jid :: inFlight with j ≠ jid
          · exact List.mem_append.mpr (Or.inl h1)
          · rcases List.mem_cons.mp h2 with h3 | h4
            · exact absurd h3 hji
            · exact List.mem_append.mpr (Or.inr h4)
  | submitDup jid s st h =>
      exact ⟨hnd, hrun⟩
  | dequeue f d jid rest s h =>
      have hperm : (queueIdsOf s.jobQueue ++ s.inFlight).Perm
          (queueIdsOf rest ++ jid :: s.inFlight) := by
        rw [h]
        have : queueIdsOf ((f, d, jid) :: rest) = jid :: queueIdsOf rest := by
          simp [queueIdsOf]
        rw [this]
        exact List.perm_middle.symm
      constructor
      · exact hperm.nodup hnd
      · intro j hj
        exact hrun j (hperm.symm.subset hj)
  | completeOk jid r l₁ l₂ s h =>
      have hold : queueIdsOf s.jobQueue ++ s.inFlight =
          (queueIdsOf s.jobQueue ++ l₁) ++ jid :: l₂ := by
        rw [h]; simp
      have hmid : (jid :: ((queueIdsOf s.jobQueue ++ l₁) ++ l₂)).Nodup := by
        rw [← List.nodup_middle, ← hold]; exact hnd
      have hjid_not : jid ∉ (queueIdsOf s.jobQueue ++ l₁) ++ l₂ :=
        (List.nodup_cons.mp hmid).1
      have hnew_nd : ((queueIdsOf s.jobQueue ++ l₁) ++ l₂).Nodup :=
        (List.nodup_cons.mp hmid).2
      constructor
      · have : queueIdsOf (handle_successful_execution jid r
            { s with inFlight := l₁ ++ l₂ }).jobQueue ++
            (handle_successful_execution jid r
              { s with inFlight := l₁ ++ l₂ }).inFlight =
            (queueIdsOf s.jobQueue ++ l₁) ++ l₂ := by
          simp [handle_successful_execution, queueIdsOf]
        rw [this]; exact hnew_nd
      · intro j hj
        have hj' : j ∈ (queueIdsOf s.jobQueue ++ l₁) ++ l₂ := by
          have : queueIdsOf (handle_successful_execution jid r
              { s with inFlight := l₁ ++ l₂ }).jobQueue ++
              (handle_successful_execution jid r
                { s with inFlight := l₁ ++ l₂ }).inFlight =
              (queueIdsOf s.jobQueue ++ l₁) ++ l₂ := by
            simp [handle_successful_execution, queueIdsOf]
          rwa [this] at hj
        have hji : j ≠ jid := fun he => hjid_not (he ▸ hj')
        show dictGet j (dictSet jid "done" s.jobStatus) = some "running"
        rw [dictGet_dictSet_ne _ _ _ _ hji]
        apply hrun
        rw [hold]
        rcases List.mem_append.mp hj' with h1 | h2
        · exact List.mem_append.mpr (Or.inl h1)
        · exact List.mem_append.mpr (Or.inr (List.mem_cons_of_mem _ h2))
  | completeErr jid msg l₁ l₂ s h =>
      have hold : queueIdsOf s.jobQueue ++ s.inFlight =
          (queueIdsOf s.jobQueue ++ l₁) ++ jid :: l₂ := by
        rw [h]; simp
      have hmid : (jid :: ((queueIdsOf s.jobQueue ++ l₁) ++ l₂)).Nodup := by
        rw [← List.nodup_middle, ← hold]; exact hnd
      have hjid_not : jid ∉ (queueIdsOf s.jobQueue ++ l₁) ++ l₂ :=
        (List.nodup_cons.mp hmid).1
      have hnew_nd : ((queueIdsOf s.jobQueue ++ l₁) ++ l₂).Nodup :=
        (List.nodup_cons.mp hmid).2
      constructor
      · have : queueIdsOf (handle_execution_failure jid msg
            { s with inFlight := l₁ ++ l₂ }).jobQueue ++
            (handle_execution_failure jid msg
              { s with inFlight := l₁ ++ l₂ }).inFlight =
            (queueIdsOf s.jobQueue ++ l₁) ++ l₂ := by
          simp [handle_execution_failure, queueIdsOf]
        rw [this]; exact hnew_nd
      · intro j hj
        have hj' : j ∈ (queueIdsOf s.jobQueue ++ l₁) ++ l₂ := by
          have : queueIdsOf (handle_execution_failure jid msg
              { s with inFlight := l₁ ++ l₂ }).jobQueue ++
              (handle_execution_failure jid msg
                { s with inFlight := l₁ ++ l₂ }).inFlight =
              (queueIdsOf s.jobQueue ++ l₁) ++ l₂ := by
            simp [handle_execution_failure, queueIdsOf]
          rwa [this] at hj
        have hji : j ≠ jid := fun he => hjid_not (he ▸ hj')
        show dictGet j (dictSet jid "error" s.jobStatus) = some "running"
        rw [dictGet_dictSet_ne _ _ _ _ hji]
        apply hrun
        rw [hold]
        rcases List.mem_append.mp hj' with h1 | h2
        · exact List.mem_append.mpr (Or.inl h1)
        · exact List.mem_append.mpr (Or.inr (List.mem_cons_of_mem _ h2))

theorem poolInv_reachable {s : PoolState} (h : Reachable s) : PoolInv s := by
  induction h with
  | init n => exact poolInv_init n
  | step _ hstep ih => exact poolInv_step ih hstep

/-! ## Concrete states and tasks used in witnesses and counterexamples -/

/-- A task that returns its payload. -/
def idTask : PyTask := fun v => .ok v

/-- A task that raises an exception with message `"boom"`. -/
def boomTask : PyTask := fun _ => .error "boom"

/-- A task that returns the integer 20. -/
def twentyTask : PyTask := fun _ => .ok (.pyInt 20)

/-- An idle pool whose shutdown flag is already set. -/
def shutPool : PoolState :=
  { jobQueue := [], inFlight := [], jobStatus := [], jobResults := [],
    shutdownEvent := true, workers := 1 }

/-- A pool in which job `"7"` failed with message `"boom"`. -/
def errPool : PoolState :=
  { jobQueue := [], inFlight := [],
    jobStatus := [("7", "error")],
    jobResults := [("7", .obj [("error", "boom")])],
    shutdownEvent := false, workers := 1 }

/-- A pool with an empty queue and job `"1"` dequeued by a worker but not
yet terminal. -/
def inFlightPool : PoolState :=
  { jobQueue := [], inFlight := ["1"], jobStatus := [("1", "running")],
    jobResults := [], shutdownEvent := false, workers := 1 }

/-! ## Claim theorems -/

theorem next_ids_eq (n m : Nat) :
    next_ids n ⟨m⟩ = (List.range' (m + 1) n).map pyNatStr := by
  induction n generalizing m with
  | zero => simp [next_ids]
  | succ k ih =>
      rw [List.range'_succ, List.map_cons]
      show pyNatStr (m + 1) :: next_ids k ⟨m + 1⟩ = _
      rw [ih (m + 1)]

/-- C6: the first `C` calls to the job-identifier generator return
exactly the decimal strings of `1 .. C` in order, pairwise distinct; the
`n`-th call returns the decimal string of `n`; each call advances the
counter by exactly one and returns the decimal string of the new value. -/
theorem claim_C6 (C : Nat) (hC : 1 ≤ C) :
    next_ids C ⟨0⟩ = (List.range' 1 C).map pyNatStr ∧
    (next_ids C ⟨0⟩).Nodup ∧
    (∀ n, 1 ≤ n → n ≤ C → (next_ids C ⟨0⟩)[n - 1]? = some (pyNatStr n)) ∧
    (∀ c : JobCounter, (get_next_id c).1 = pyNatStr (c.counter + 1) ∧
      (get_next_id c).2.counter = c.counter + 1) := by
  refine ⟨next_ids_eq C 0, ?_, ?_, fun c => ⟨rfl, rfl⟩⟩
  · rw [next_ids_eq]
    exact (List.nodup_range' 1 C).map pyNatStr_injective
  · intro n h1 h2
    rw [next_ids_eq]
    have hlt : n - 1 < C := by omega
    rw [List.getElem?_map, List.getElem?_range' (0 + 1) 1 hlt, Option.map_some']
    have : 0 + 1 + 1 * (n - 1) = n := by omega
    rw [this]

/-- Witness for C6 at `C = 3`. -/
theorem claim_C6_witness : 1 ≤ 3 ∧ next_ids 3 ⟨0⟩ = ["1", "2", "3"] := by
  constructor
  · decide
  · rw [(claim_C6 3 (by decide)).1]
    decide

/-- Modelled from the spec: "clamped into `[1, available_parallelism]`". -/
def spec_clamp (k : Int) (c : Nat) : Nat :=
  if k < 1 then 1 else if (c : Int) < k then c else k.toNat

theorem calc_thread_count_bounds (env_var : Option String) (core_count : Nat)
    (hc : 1 ≤ core_count) :
    1 ≤ calculate_optimal_thread_count env_var core_count ∧
    calculate_optimal_thread_count env_var core_count ≤ core_count := by
  cases env_var with
  | none =>
      show 1 ≤ core_count ∧ core_count ≤ core_count
      omega
  | some s =>
      simp only [calculate_optimal_thread_count]
      by_cases hs : s = ""
      · rw [if_pos hs]
        omega
      · rw [if_neg hs]
        cases h : pyIntParse s with
        | none =>
            show 1 ≤ core_count ∧ core_count ≤ core_count
            omega
        | some k =>
            show 1 ≤ (max 1 (min k (core_count : Int))).toNat ∧
              (max 1 (min k (core_count : Int))).toNat ≤ core_count
            omega

/-- C7: with `core_count ≥ 1`, the effective worker count equals the
environment preference clamped into `[1, core_count]` when the preference
parses as an integer; it equals `core_count` when the preference is
absent, empty, or unparseable; and it always lies in `[1, core_count]`. -/
theorem claim_C7 (env_var : Option String) (core_count : Nat)
    (hc : 1 ≤ core_count) :
    (∀ s k, env_var = some s → s ≠ "" → pyIntParse s = some k →
      calculate_optimal_thread_count env_var core_count = spec_clamp k core_count) ∧
    ((env_var = none ∨ ∃ s, env_var = some s ∧ (s = "" ∨ pyIntParse s = none)) →
      calculate_optimal_thread_count env_var core_count = core_count) ∧
    1 ≤ calculate_optimal_thread_count env_var core_count ∧
    calculate_optimal_thread_count env_var core_count ≤ core_count := by
  refine ⟨?_, ?_, (calc_thread_count_bounds env_var core_count hc).1,
    (calc_thread_count_bounds env_var core_count hc).2⟩
  · rintro s k rfl hs hk
    simp only [calculate_optimal_thread_count]
    rw [if_neg hs, hk]
    show (max 1 (min k (core_count : Int))).toNat = spec_clamp k core_count
    unfold spec_clamp
    split
    · omega
    · split <;> omega
  · rintro (rfl | ⟨s, rfl, (rfl | hs)⟩)
    · rfl
    · rfl
    · by_cases he : s = ""
      · simp [calculate_optimal_thread_count, he]
      · simp [calculate_optimal_thread_count, he, hs]

/-- Witness for C7: a preference of 64 on an 8-core machine yields
exactly 8 workers. -/
theorem claim_C7_witness :
    calculate_optimal_thread_count (some "64") 8 = 8 ∧ (1 : Nat) ≤ 8 := by
  have h := (claim_C7 (some "64") 8 (by decide)).1 "64" 64 rfl (by decide) (by decide)
  constructor
  · rw [h]; decide
  · decide

/-- C8: `shutdown` on a pool whose shutdown flag is already set is a
no-op: the state (flag, workers, queue, registry) is returned unchanged
and none of the activate/drain/join phases run. -/
theorem claim_C8 (s : PoolState) (h : s.shutdownEvent = true) :
    shutdown s = (s, []) := by
  simp [shutdown, h]

/-- Witness for C8 on a concrete already-shut-down pool. -/
theorem claim_C8_witness :
    shutPool.shutdownEvent = true ∧ shutdown shutPool = (shutPool, []) :=
  ⟨rfl, claim_C8 shutPool rfl⟩

/-- C2: when the front job's task raises with message `msg`, the worker
records status `error` and the failure dict containing `msg`, the
exception does not escape (`process_next_task` is total and the loop
iterates), and the next job on the same pool is still processed to
`done` with its result stored. -/
theorem claim_C2 (f g : PyTask) (d e : PyVal) (tid tid2 : String) (v : PyVal)
    (msg : String) (s : PoolState)
    (hq : s.jobQueue = [(f, d, tid), (g, e, tid2)])
    (hf : f d = .error msg) (hg : g e = .ok v) (hne : tid2 ≠ tid) :
    dictGet tid (process_next_task s).jobStatus = some "error" ∧
    dictGet tid (process_next_task s).jobResults = some (.obj [("error", msg)]) ∧
    dictGet tid2 (process_next_task (process_next_task s)).jobStatus = some "done" ∧
    dictGet tid2 (process_next_task (process_next_task s)).jobResults =
      some (.value v) ∧
    dictGet tid (process_next_task (process_next_task s)).jobStatus =
      some "error" := by
  have h1 : process_next_task s =
      handle_execution_failure tid msg { s with jobQueue := [(g, e, tid2)] } := by
    unfold process_next_task
    rw [hq]
    show execute_task_safely f d tid { s with jobQueue := [(g, e, tid2)] } = _
    unfold execute_task_safely
    rw [hf]
  have h2 : process_next_task (process_next_task s) =
      handle_successful_execution tid2 v
        (handle_execution_failure tid msg { s with jobQueue := [] }) := by
    rw [h1]
    unfold process_next_task
    show execute_task_safely g e tid2 _ = _
    unfold execute_task_safely
    rw [hg]
    rfl
  rw [h2, h1]
  unfold handle_execution_failure handle_successful_execution
  refine ⟨dictGet_dictSet_eq _ _ _, dictGet_dictSet_eq _ _ _,
    dictGet_dictSet_eq _ _ _, dictGet_dictSet_eq _ _ _, ?_⟩
  show dictGet tid (dictSet tid2 "done" (dictSet tid "error" s.jobStatus)) =
    some "error"
  rw [dictGet_dictSet_ne _ _ _ _ (Ne.symm hne)]
  exact dictGet_dictSet_eq _ _ _

/-- A pool with a failing job queued ahead of a succeeding one. -/
def c2Pool : PoolState :=
  { jobQueue := [(boomTask, .pyInt 0, "7"), (twentyTask, .pyInt 0, "8")],
    inFlight := [], jobStatus := [("7", "running"), ("8", "running")],
    jobResults := [], shutdownEvent := false, workers := 2 }

/-- Witness for C2: job `"7"` raises `"boom"`, job `"8"` then still
completes with result 20. -/
theorem claim_C2_witness :
    dictGet "7" (process_next_task c2Pool).jobStatus = some "error" ∧
    dictGet "7" (process_next_task c2Pool).jobResults =
      some (.obj [("error", "boom")]) ∧
    dictGet "8" (process_next_task (process_next_task c2Pool)).jobStatus =
      some "done" ∧
    dictGet "8" (process_next_task (process_next_task c2Pool)).jobResults =
      some (.value (.pyInt 20)) ∧
    dictGet "7" (process_next_task (process_next_task c2Pool)).jobStatus =
      some "error" :=
  claim_C2 boomTask twentyTask (.pyInt 0) (.pyInt 0) "7" "8" (.pyInt 20) "boom"
    c2Pool rfl rfl rfl (by decide)

/-- C10: the pool's operations coerce the job id with `str(...)`:
lookups agree for any two values with equal string forms, a submission
registers under `str(v)`, and a later submission with a value of the
same string form raises the duplicate error. -/
theorem claim_C10 (v v' : PyVal) (f f' : PyTask) (d d' : PyVal) (s : PoolState)
    (hvv : pyStrOf v' = pyStrOf v) :
    get_job_status v' s = get_job_status v s ∧
    get_job_result v' s = get_job_result v s ∧
    (dictGet (pyStrOf v) s.jobStatus = none →
      add_job f d v s = .ok (pyStrOf v, register_new_job f d (pyStrOf v) s)) ∧
    (∀ s₂ : PoolState, add_job f d v s = .ok (pyStrOf v, s₂) →
      add_job f' d' v' s₂ = .error ("Duplicate job ID: " ++ pyStrOf v)) := by
  refine ⟨?_, ?_, ?_, ?_⟩
  · unfold get_job_status
    rw [hvv]
  · unfold get_job_result get_job_status
    rw [hvv]
  · intro h
    simp only [add_job, validate_job_identifier]
    rw [h]
  · intro s₂ hok
    simp only [add_job, validate_job_identifier] at hok ⊢
    cases hd : dictGet (pyStrOf v) s.jobStatus with
    | some st =>
        rw [hd] at hok
        simp at hok
    | none =>
        rw [hd] at hok
        simp only [Except.ok.injEq, Prod.mk.injEq, true_and] at hok
        subst hok
        rw [hvv]
        have hreg : dictGet (pyStrOf v)
            (register_new_job f d (pyStrOf v) s).jobStatus = some "running" := by
          unfold register_new_job
          exact dictGet_dictSet_eq _ _ _
        rw [hreg]

/-- Witness for C10: after submitting with the string `"7"`, submitting
with the integer `7` is rejected as a duplicate, and status lookups with
`7` and `"7"` agree. -/
theorem claim_C10_witness :
    pyStrOf (.pyInt 7) = pyStrOf (.pyStr "7") ∧
    get_job_status (.pyInt 7) (initPool 1) =
      get_job_status (.pyStr "7") (initPool 1) ∧
    add_job idTask (.pyInt 0) (.pyStr "7") (initPool 1) =
      .ok ("7", register_new_job idTask (.pyInt 0) "7" (initPool 1)) ∧
    add_job idTask (.pyInt 0) (.pyInt 7)
        (register_new_job idTask (.pyInt 0) "7" (initPool 1)) =
      .error ("Duplicate job ID: " ++ "7") := by
  have h := claim_C10 (.pyStr "7") (.pyInt 7) idTask idTask (.pyInt 0) (.pyInt 0)
    (initPool 1) (by decide)
  exact ⟨by decide, h.1, h.2.2.1 rfl,
    h.2.2.2 (register_new_job idTask (.pyInt 0) "7" (initPool 1)) (h.2.2.1 rfl)⟩

/-- Counterexample to C3 as stated: with the shutdown flag set,
`ThreadPool.add_job` itself does not reject — it succeeds, enqueues the
job, and grows the registry (the shutdown check lives only in the HTTP
handler). -/
theorem claim_C3_counterexample :
    shutPool.shutdownEvent = true ∧
    add_job idTask (.pyInt 0) (.pyStr "1") shutPool =
      .ok ("1", register_new_job idTask (.pyInt 0) "1" shutPool) ∧
    (register_new_job idTask (.pyInt 0) "1" shutPool).jobQueue.length =
      shutPool.jobQueue.length + 1 ∧
    (register_new_job idTask (.pyInt 0) "1" shutPool).jobStatus.length =
      shutPool.jobStatus.length + 1 :=
  ⟨rfl, rfl, rfl, rfl⟩

/-- C3 (amended): submission through the request handler
`submit_job_request` after shutdown is rejected and leaves the counter,
the queue and the registry exactly unchanged. -/
theorem claim_C3 (task_callable : PyTask) (payload : PyVal) (c : JobCounter)
    (s : PoolState) (h : s.shutdownEvent = true) :
    submit_job_request task_callable payload true c s = (.rejected, c, s) := by
  simp [submit_job_request, h]

/-- Witness for C3 on a concrete shut-down pool. -/
theorem claim_C3_witness :
    shutPool.shutdownEvent = true ∧
    submit_job_request idTask (.pyInt 0) true ⟨0⟩ shutPool =
      (.rejected, ⟨0⟩, shutPool) :=
  ⟨rfl, claim_C3 idTask (.pyInt 0) ⟨0⟩ shutPool rfl⟩

/-- Counterexample to C4 as stated: for a job with status `error` and a
stored failure description, the pool's `get_job_result` returns `none` —
the same answer as for an unknown id — rather than the description. -/
theorem claim_C4_counterexample :
    get_job_status (.pyStr "7") errPool = some "error" ∧
    dictGet "7" errPool.jobResults = some (.obj [("error", "boom")]) ∧
    get_job_result (.pyStr "7") errPool = none ∧
    get_job_result (.pyStr "missing") errPool = none :=
  ⟨rfl, rfl, rfl, rfl⟩

/-- C4 (amended): the HTTP-level `get_response` distinguishes the three
outcomes: 404 for an unknown id, the bare status for a running job, and
the stored structured failure description for an error job. -/
theorem claim_C4 (s : PoolState) (job_id : String) :
    (dictGet job_id s.jobStatus = none → get_response job_id s = .invalidJobId) ∧
    (dictGet job_id s.jobStatus = some "running" →
      get_response job_id s = .statusOnly "running") ∧
    (∀ r, dictGet job_id s.jobStatus = some "error" →
      dictGet job_id s.jobResults = some r →
      get_response job_id s = .errorData r) := by
  refine ⟨?_, ?_, ?_⟩
  · intro h
    unfold get_response
    rw [h]
  · intro h
    unfold get_response
    rw [h]
    rfl
  · intro r h1 h2
    unfold get_response
    rw [h1]
    show GetResponse.errorData ((dictGet job_id s.jobResults).getD (.obj [])) =
      .errorData r
    rw [h2]
    rfl

/-- Witness for C4: error, running, and unknown ids each get their own
distinguishable response. -/
theorem claim_C4_witness :
    get_response "7" errPool = .errorData (.obj [("error", "boom")]) ∧
    get_response "1" inFlightPool = .statusOnly "running" ∧
    get_response "zzz" errPool = .invalidJobId :=
  ⟨(claim_C4 errPool "7").2.2 (.obj [("error", "boom")]) rfl rfl,
   (claim_C4 inFlightPool "1").2.1 rfl,
   (claim_C4 errPool "zzz").1 rfl⟩

/-- `inFlightPool` is reachable: submit job `"1"`, then a worker
dequeues it. -/
theorem reachable_inFlightPool : Reachable inFlightPool := by
  have h1 : Reachable (initPool 1) := Reachable.init 1
  have h2 : Reachable (register_new_job idTask (.pyInt 0) "1" (initPool 1)) :=
    Reachable.step h1 (SysStep.submitOk idTask (.pyInt 0) "1" (initPool 1) rfl)
  exact Reachable.step h2 (SysStep.dequeue idTask (.pyInt 0) "1" [] _ rfl)

/-- Counterexample to C9 as stated: in a reachable state with one job
dequeued by a worker and still running, `num_jobs` reads the queue size
and reports 0, while the number of queued-or-running jobs is 1. -/
theorem claim_C9_counterexample :
    Reachable inFlightPool ∧ num_jobs inFlightPool = 0 ∧
    spec_queued_or_running inFlightPool = 1 :=
  ⟨reachable_inFlightPool, by decide, by decide⟩

/-- C9 (amended): `num_jobs` returns the number of jobs still in the
queue (jobs already dequeued by a worker are not counted), and in
particular returns 0 in every state where shutdown has been initiated
and the queue is fully drained. -/
theorem claim_C9 (s : PoolState) :
    num_jobs s = s.jobQueue.length ∧
    (s.shutdownEvent = true → s.jobQueue = [] → num_jobs s = 0) := by
  constructor
  · simp only [num_jobs]
    split
    · next h => omega
    · rfl
  · intro h1 h2
    simp [num_jobs, h1, h2]

/-- Witness for C9 on a drained shut-down pool. -/
theorem claim_C9_witness :
    shutPool.shutdownEvent = true ∧ shutPool.jobQueue = [] ∧
    num_jobs shutPool = 0 :=
  ⟨rfl, rfl, (claim_C9 shutPool).2 rfl rfl⟩

/-- C5: over the reachable states of the submit/dequeue/complete step
system, a present status only ever stays the same or moves forward from
`running` to a terminal `done`/`error` (so a terminal status is never
changed again, and a submit step never overwrites an existing status);
and immediately after a successful submission the status is `running`. -/
theorem claim_C5 :
    (∀ s s' : PoolState, Reachable s → SysStep s s' → ∀ jid st,
      dictGet jid s.jobStatus = some st →
      ∃ st', dictGet jid s'.jobStatus = some st' ∧
        (st' = st ∨ (st = "running" ∧ (st' = "done" ∨ st' = "error")))) ∧
    (∀ (f : PyTask) (d : PyVal) (jid : String) (s : PoolState),
      dictGet jid s.jobStatus = none →
      dictGet jid (register_new_job f d jid s).jobStatus = some "running") ∧
    (∀ (s : PoolState) (jid : String) (l₁ l₂ : List String), Reachable s →
      s.inFlight = l₁ ++ jid :: l₂ →
      dictGet jid s.jobStatus = some "running") := by
  refine ⟨?_, ?_, ?_⟩
  · intro s s' hreach hstep jid st hst
    cases hstep with
    | submitOk f d jid₀ sp h =>
        refine ⟨st, ?_, Or.inl rfl⟩
        show dictGet jid (dictSet jid₀ "running" s.jobStatus) = some st
        have hne : jid ≠ jid₀ := by
          intro he
          subst he
          rw [hst] at h
          exact Option.noConfusion h
        rw [dictGet_dictSet_ne _ _ _ _ hne]
        exact hst
    | submitDup jid₀ sp st₀ h =>
        exact ⟨st, hst, Or.inl rfl⟩
    | dequeue f d jid₀ rest sp h =>
        exact ⟨st, hst, Or.inl rfl⟩
    | completeOk jid₀ r l₁ l₂ sp h =>
        by_cases hje : jid = jid₀
        · subst hje
          have hinv := poolInv_reachable hreach
          have hmem : jid ∈ queueIdsOf s.jobQueue ++ s.inFlight := by
            refine List.mem_append.mpr (Or.inr ?_)
            rw [h]
            exact List.mem_append.mpr (Or.inr (List.mem_cons_self _ _))
          have hrunning := hinv.2 jid hmem
          have hst_run : st = "running" := by
            rw [hst] at hrunning
            exact Option.some.inj hrunning
          refine ⟨"done", ?_, Or.inr ⟨hst_run, Or.inl rfl⟩⟩
          show dictGet jid (dictSet jid "done" s.jobStatus) = some "done"
          exact dictGet_dictSet_eq _ _ _
        · refine ⟨st, ?_, Or.inl rfl⟩
          show dictGet jid (dictSet jid₀ "done" s.jobStatus) = some st
          rw [dictGet_dictSet_ne _ _ _ _ hje]
          exact hst
    | completeErr jid₀ msg l₁ l₂ sp h =>
        by_cases hje : jid = jid₀
        · subst hje
          have hinv := poolInv_reachable hreach
          have hmem : jid ∈ queueIdsOf s.jobQueue ++ s.inFlight := by
            refine List.mem_append.mpr (Or.inr ?_)
            rw [h]
            exact List.mem_append.mpr (Or.inr (List.mem_cons_self _ _))
          have hrunning := hinv.2 jid hmem
          have hst_run : st = "running" := by
            rw [hst] at hrunning
            exact Option.some.inj hrunning
          refine ⟨"error", ?_, Or.inr ⟨hst_run, Or.inr rfl⟩⟩
          show dictGet jid (dictSet jid "error" s.jobStatus) = some "error"
          exact dictGet_dictSet_eq _ _ _
        · refine ⟨st, ?_, Or.inl rfl⟩
          show dictGet jid (dictSet jid₀ "error" s.jobStatus) = some st
          rw [dictGet_dictSet_ne _ _ _ _ hje]
          exact hst
  · intro f d jid s h
    show dictGet jid (dictSet jid "running" s.jobStatus) = some "running"
    exact dictGet_dictSet_eq _ _ _
  · intro s jid l₁ l₂ hreach hfl
    have hinv := poolInv_reachable hreach
    apply hinv.2 jid
    refine List.mem_append.mpr (Or.inr ?_)
    rw [hfl]
    exact List.mem_append.mpr (Or.inr (List.mem_cons_self _ _))

/-- Witness for C5: a worker completing reachable in-flight job `"1"`
moves its status forward from `running`. -/
theorem claim_C5_witness :
    ∃ st', dictGet "1" (handle_successful_execution "1" (.pyInt 5)
        { inFlightPool with inFlight := ([] : List String) }).jobStatus =
      some st' ∧
      (st' = "running" ∨ ("running" = "running" ∧ (st' = "done" ∨ st' = "error"))) :=
  claim_C5.1 inFlightPool _ reachable_inFlightPool
    (SysStep.completeOk "1" (.pyInt 5) [] [] inFlightPool rfl) "1" "running" rfl

/-- C1: evaluating the interleaved micro-step semantics of two
`add_job("7")` calls on an empty pool.  Under the schedule
A-check, B-check, A-put, A-insert, B-put, B-insert both calls pass the
duplicate check and return successfully, and the queue ends with two
entries for id `"7"` — the duplicate check and the status insertion are
two separate critical sections, so the claimed single critical section
(and the rejection of the second submission) fails; sequentially the
second call does raise the duplicate error. -/
theorem claim_C1 :
    (runSchedule "7" "7" [false, true, false, false, true, true] raceInit).phaseA =
      .finished ∧
    (runSchedule "7" "7" [false, true, false, false, true, true] raceInit).phaseB =
      .finished ∧
    (runSchedule "7" "7" [false, true, false, false, true, true] raceInit).queueIdsR =
      ["7", "7"] ∧
    (runSchedule "7" "7" [false, true, false, false, true, true] raceInit).statusR =
      [("7", "running")] ∧
    (runSchedule "7" "7" [false, false, false, true] raceInit).phaseB =
      .raisedDup := by
  decide

end TaskRunnerModel
